import Mathlib

/-!
Shallow embedding of the diary data-hook layer of the gameday-diary
repository (`src/hooks/useGameLogs.ts`): the input validator
`validateGameLogInput`, the list query `useGameLogs`, the mutations
`useAddGameLog`, `useUpdateGameLog`, and the optimistic delete protocol of
`useDeleteGameLog` (`onMutate` / `onError` / `onSettled`) over a model of
the client query cache.
-/

/-- Free text is modelled as a list of characters, so that trimming and
truncation are explicit list operations whose lengths can be reasoned
about directly. -/
abbrev FreeText := List Char

/-- The whitespace characters removed from both ends of a string by the
runtime trim operation. -/
def isWs (c : Char) : Bool :=
  c == ' ' || c == '\t' || c == '\n' || c == '\r'

/-- `s.trim()`: remove whitespace from both ends of the text. -/
def jsTrim (s : FreeText) : FreeText :=
  ((s.dropWhile isWs).reverse.dropWhile isWs).reverse

/-- Embeds `field?.trim().slice(0, cap) || null` from the sanitization step
of `validateGameLogInput`: an absent field stays absent (`undefined`
coerced to `null`), a present field is trimmed then truncated to `cap`
characters, and an empty result is coerced to `null` (modelled as
`none`). -/
def sanitizeText (cap : Nat) : Option FreeText → Option FreeText
  | none => none
  | some s =>
    if (jsTrim s).take cap = [] then none else some ((jsTrim s).take cap)

/-- The candidate entry passed to `validateGameLogInput`. String-typed
required fields are `Option String` so that the runtime-falsy absent case
is representable alongside the empty string; `rating` is an optional
runtime number, modelled as a rational so non-integer values exist. -/
structure GameLogInput where
  game_id : Option String
  mode : Option String
  company : Option FreeText
  rating : Option Rat
  rooted_for : Option FreeText
  notes : Option FreeText
deriving DecidableEq

/-- The normalized copy returned by `validateGameLogInput` on success:
the input spread unchanged except that the three free-text fields are
sanitized. -/
structure SanitizedGameLog where
  game_id : Option String
  mode : Option String
  company : Option FreeText
  rating : Option Rat
  rooted_for : Option FreeText
  notes : Option FreeText
deriving DecidableEq

/-- Runtime falsiness of an optional string field (`!x`): true when the
field is absent or the empty string. -/
def jsFalsyStr : Option String → Bool
  | none => true
  | some s => s == ""

/-- `['attended', 'watched'].includes(mode)` on the (possibly absent)
mode field. -/
def modeAllowed : Option String → Bool
  | some s => ["attended", "watched"].contains s
  | none => false

/-- The rating guard of `validateGameLogInput`: a rating that is present
(neither `undefined` nor `null`, both modelled as `none`) fails when it is
not an integer, below 1 or above 5. -/
def ratingBad : Option Rat → Bool
  | none => false
  | some r => !(r.den == 1) || decide (r < 1) || decide (5 < r)

/-- The sanitization step of `validateGameLogInput`: spread the input and
replace each free-text field with its sanitized form (caps 255, 1000 and
100 for `company`, `notes` and `rooted_for`). -/
def sanitizeGameLog (g : GameLogInput) : SanitizedGameLog :=
  { game_id := g.game_id
    mode := g.mode
    rating := g.rating
    company := sanitizeText 255 g.company
    notes := sanitizeText 1000 g.notes
    rooted_for := sanitizeText 100 g.rooted_for }

/-- Embeds `validateGameLogInput`: required-field check, mode enumeration
check, rating range check, then sanitization of the free-text fields. -/
def validateGameLogInput (g : GameLogInput) : Except String SanitizedGameLog :=
  if jsFalsyStr g.game_id || jsFalsyStr g.mode then
    .error "Game ID and mode are required"
  else if !(modeAllowed g.mode) then
    .error "Invalid mode. Must be \"attended\" or \"watched\""
  else if ratingBad g.rating then
    .error "Rating must be an integer between 1 and 5"
  else
    .ok (sanitizeGameLog g)

/-- A persisted diary-entry row of the `user_game_logs` table. Timestamps
are modelled as naturals (creation order). -/
structure LogRow where
  id : String
  user_id : String
  game_id : String
  mode : String
  company : Option FreeText
  rating : Option Rat
  rooted_for : Option FreeText
  notes : Option FreeText
  created_at : Nat
  updated_at : Nat
deriving DecidableEq

/-- An element of a cached `logged-games` result set: a game joined with
its owning diary entry (`logData`), which the view may leave absent. -/
structure LoggedGame where
  game_id : String
  logData : Option LogRow
deriving DecidableEq

/-- A slot of the client query cache: its key (a list of strings, e.g.
`["game-logs", userId]` or `["logged-games", userId, filterParams]`), its
cached data (`none` models `undefined`), and whether the data is still
fresh (invalidation clears this flag, forcing a refetch). -/
structure CacheSlot (α : Type) where
  key : List String
  data : Option α
  fresh : Bool
deriving DecidableEq

/-- `queryClient.getQueryData(key)`: data of the first slot with exactly
this key, `undefined` when the slot is absent or holds no data. -/
def getQueryData {α : Type} : List (CacheSlot α) → List String → Option α
  | [], _ => none
  | s :: rest, k => if s.key = k then s.data else getQueryData rest k

/-- `queryClient.setQueryData(key, value)`: store `value` in the slot with
exactly this key, creating the slot when absent. -/
def setQueryData {α : Type} : List (CacheSlot α) → List String → α → List (CacheSlot α)
  | [], k, v => [{ key := k, data := some v, fresh := true }]
  | s :: rest, k, v =>
    if s.key = k then { s with data := some v } :: rest
    else s :: setQueryData rest k v

/-- Invalidation of every slot whose key starts with the given segment
(`queryClient.invalidateQueries` with a one-element key): the matching
slots are marked stale, forcing a fresh read from the remote store. -/
def invalidateByHead {α : Type} (h : String) (slots : List (CacheSlot α)) : List (CacheSlot α) :=
  slots.map (fun s => if s.key.head? = some h then { s with fresh := false } else s)

/-- The client query cache as seen by the delete protocol: the
`game-logs` slots (entry lists) and the `logged-games` slots (joined
result sets, one per filter-parameter combination). -/
structure Cache where
  entries : List (CacheSlot (List LogRow))
  logged : List (CacheSlot (List LoggedGame))
deriving DecidableEq

/-- The context object returned by `onMutate`: the snapshots taken before
the optimistic patch, for possible rollback. -/
structure DeleteCtx where
  previousGameLogs : Option (List LogRow)
  previousLoggedGames : Option (List LoggedGame)
deriving DecidableEq

/-- The per-slot optimistic patch applied by `onMutate` to every query
found under the one-element key `['logged-games']`: drop each element
whose linked log entry has the deleted id; a slot with no data receives
the empty list. -/
def patchLoggedSlot (gameLogId : String) (s : CacheSlot (List LoggedGame)) :
    CacheSlot (List LoggedGame) :=
  if s.key.head? = some "logged-games" then
    { s with
      data := some (match s.data with
        | some l => l.filter (fun g => !(g.logData.map LogRow.id == some gameLogId))
        | none => []) }
  else s

/-- `useDeleteGameLog.onMutate`: snapshot the entry-list slot
`["game-logs", uid]` and the single logged-games slot
`["logged-games", uid]`, then optimistically patch the entry-list slot
(dropping the deleted id, installing `[]` when the slot held no data) and
every `logged-games` slot regardless of filter parameters. The in-flight
query cancellation that precedes this has no effect on cached data and is
not modelled. -/
def onMutate (uid gameLogId : String) (c : Cache) : Cache × DeleteCtx :=
  let previousGameLogs := getQueryData c.entries ["game-logs", uid]
  let previousLoggedGames := getQueryData c.logged ["logged-games", uid]
  let patchedEntryList :=
    match getQueryData c.entries ["game-logs", uid] with
    | some l => l.filter (fun log => !(log.id == gameLogId))
    | none => []
  ({ entries := setQueryData c.entries ["game-logs", uid] patchedEntryList
     logged := c.logged.map (patchLoggedSlot gameLogId) },
   { previousGameLogs := previousGameLogs
     previousLoggedGames := previousLoggedGames })

/-- `useDeleteGameLog.onError`: restore each snapshot to its cache slot,
but only when the snapshot is truthy — an `undefined` snapshot (`none`)
is not restored. -/
def onError (uid : String) (ctx : DeleteCtx) (c : Cache) : Cache :=
  let c1 :=
    match ctx.previousGameLogs with
    | some prev => { c with entries := setQueryData c.entries ["game-logs", uid] prev }
    | none => c
  match ctx.previousLoggedGames with
  | some prev => { c1 with logged := setQueryData c1.logged ["logged-games", uid] prev }
  | none => c1

/-- `useDeleteGameLog.onSettled`: always invalidate the entry-list cache
and all logged-games caches, regardless of the outcome of the remote
delete. -/
def onSettled (c : Cache) : Cache :=
  { entries := invalidateByHead "game-logs" c.entries
    logged := invalidateByHead "logged-games" c.logged }

/-- One full execution of the delete protocol that reaches the remote
call: optimistic patch, then rollback exactly when the remote delete
fails, then unconditional invalidation. -/
def deleteFlow (uid gameLogId : String) (remoteOk : Bool) (c : Cache) : Cache :=
  let (c1, ctx) := onMutate uid gameLogId c
  let c2 := if remoteOk then c1 else onError uid ctx c1
  onSettled c2

/-- The remote `user_game_logs` table. -/
structure Db where
  rows : List LogRow
deriving DecidableEq

/-- The ordering requested from the remote store by the list query:
newest-created first (`order('created_at', ascending: false)`). -/
def newerCreated (a b : LogRow) : Prop :=
  b.created_at ≤ a.created_at

instance : DecidableRel newerCreated :=
  fun a b => inferInstanceAs (Decidable (b.created_at ≤ a.created_at))

instance : IsTotal LogRow newerCreated :=
  ⟨fun a b => (Nat.le_total a.created_at b.created_at).symm⟩

instance : IsTrans LogRow newerCreated :=
  ⟨fun _ _ _ hab hbc => Nat.le_trans hbc hab⟩

/-- The remote read issued by the list query:
`select('*').eq('user_id', uid).order('created_at', ascending: false)`,
modelled as a filter followed by a sort. -/
def dbSelectGameLogs (db : Db) (uid : String) : List LogRow :=
  List.insertionSort newerCreated (db.rows.filter (fun r => r.user_id == uid))

/-- `useGameLogs` query function: with no session it returns the empty
list without touching the remote store; with a session it reads the
user's rows newest-created first. The second component records whether a
network call was issued. -/
def gameLogsQueryFn (user : Option String) (db : Db) : List LogRow × Bool :=
  match user with
  | none => ([], false)
  | some uid => (dbSelectGameLogs db uid, true)

/-- The `enabled: !!user` flag of `useGameLogs`: the query is never
issued at all without a session. -/
def gameLogsQueryEnabled (user : Option String) : Bool :=
  user.isSome

/-- `useAddGameLog` mutation function. `callerUserId` models a `user_id`
property smuggled into the input object by the caller: the insert spreads
the validated entry and then writes the explicit `user_id: user.id`
property after it, so any spread-in value is overwritten and the
argument is ignored. `newId` and `now` stand for the server-assigned id
and timestamps. -/
def addGameLog (user : Option String) (g : GameLogInput) (callerUserId : Option String)
    (db : Db) (newId : String) (now : Nat) : Except String (Db × LogRow) :=
  match user with
  | none => .error "Must be authenticated to add game logs"
  | some uid =>
    match validateGameLogInput g with
    | .error e => .error e
    | .ok v =>
      let row : LogRow :=
        { id := newId
          user_id := (fun _ => uid) callerUserId
          game_id := v.game_id.getD ""
          mode := v.mode.getD ""
          company := v.company
          rating := v.rating
          rooted_for := v.rooted_for
          notes := v.notes
          created_at := now
          updated_at := now }
      .ok ({ rows := db.rows ++ [row] }, row)

/-- The input object of `useUpdateGameLog`: target id plus the mutable
fields. -/
structure UpdateGameLogInput where
  id : String
  mode : Option String
  company : Option FreeText
  rating : Option Rat
  rooted_for : Option FreeText
  notes : Option FreeText
deriving DecidableEq

/-- A value assigned to a column by the update statement. -/
inductive FieldVal where
  | optStr : Option String → FieldVal
  | txt : Option FreeText → FieldVal
  | num : Option Rat → FieldVal
  | time : Nat → FieldVal
deriving DecidableEq

/-- `useUpdateGameLog` mutation function: session check, id check, shared
validation with the sentinel `game_id: 'temp'`, then the update statement.
The result is the list of (column, value) assignments passed to
`update(...)` together with the compound filter
`eq('id', target).eq('user_id', session)`. -/
def updateGameLog (user : Option String) (g : UpdateGameLogInput) (now : Nat) :
    Except String (List (String × FieldVal) × (String × String)) :=
  match user with
  | none => .error "Must be authenticated to update game logs"
  | some uid =>
    if g.id = "" then .error "Game log ID is required for updates"
    else
      match validateGameLogInput
          { game_id := some "temp"
            mode := g.mode
            company := g.company
            rating := g.rating
            rooted_for := g.rooted_for
            notes := g.notes } with
      | .error e => .error e
      | .ok v =>
        .ok ([("mode", FieldVal.optStr v.mode),
              ("company", FieldVal.txt v.company),
              ("rating", FieldVal.num v.rating),
              ("rooted_for", FieldVal.txt v.rooted_for),
              ("notes", FieldVal.txt v.notes),
              ("updated_at", FieldVal.time now)],
             (g.id, uid))

/-! ### Helper lemmas about the cache primitives -/

theorem getQueryData_setQueryData_self {α : Type} (slots : List (CacheSlot α))
    (k : List String) (v : α) :
    getQueryData (setQueryData slots k v) k = some v := by
  induction slots with
  | nil => simp [setQueryData, getQueryData]
  | cons s rest ih =>
    by_cases h : s.key = k
    · simp [setQueryData, getQueryData, h]
    · simp [setQueryData, getQueryData, h, ih]

theorem getQueryData_setQueryData_ne {α : Type} (slots : List (CacheSlot α))
    (k k' : List String) (v : α) (hne : k' ≠ k) :
    getQueryData (setQueryData slots k v) k' = getQueryData slots k' := by
  induction slots with
  | nil => simp [setQueryData, getQueryData, Ne.symm hne]
  | cons s rest ih =>
    by_cases h : s.key = k
    · have hkk' : k ≠ k' := Ne.symm hne
      simp [setQueryData, getQueryData, h, hkk']
    · by_cases h2 : s.key = k'
      · simp [setQueryData, getQueryData, h, h2, hne]
      · simp [setQueryData, getQueryData, h, h2, ih]

/-! ### Helper lemmas about the validator -/

theorem validateGameLogInput_ok_eq {g : GameLogInput} {s : SanitizedGameLog}
    (h : validateGameLogInput g = .ok s) : s = sanitizeGameLog g := by
  unfold validateGameLogInput at h
  split at h
  · cases h
  · split at h
    · cases h
    · split at h
      · cases h
      · cases h; rfl

theorem validateGameLogInput_isOk_eq (g : GameLogInput) :
    (validateGameLogInput g).isOk =
      (!(jsFalsyStr g.game_id || jsFalsyStr g.mode) && modeAllowed g.mode
        && !(ratingBad g.rating)) := by
  by_cases h1 : (jsFalsyStr g.game_id || jsFalsyStr g.mode) = true
  · simp [validateGameLogInput, h1, Except.isOk, Except.toBool]
  · by_cases h2 : modeAllowed g.mode = true
    · by_cases h3 : ratingBad g.rating = true
      · simp [validateGameLogInput, h1, h2, h3, Except.isOk, Except.toBool]
      · simp [validateGameLogInput, h1, h2, h3, Except.isOk, Except.toBool]
    · simp [validateGameLogInput, h1, h2, Except.isOk, Except.toBool]

theorem ratingBad_iff (x : Option Rat) :
    ratingBad x = true ↔ ∃ r, x = some r ∧ ¬(r.den = 1 ∧ 1 ≤ r ∧ r ≤ 5) := by
  cases x with
  | none => simp [ratingBad]
  | some r =>
    have h2 : ¬(r.den = 1 ∧ 1 ≤ r ∧ r ≤ 5) ↔ (¬r.den = 1 ∨ r < 1 ∨ 5 < r) := by
      rw [not_and_or, not_and_or, not_le, not_le]
    simp only [ratingBad, Bool.or_eq_true, Bool.not_eq_true', beq_eq_false_iff_ne,
      decide_eq_true_eq, Option.some.injEq]
    constructor
    · rintro ((h | h) | h)
      · exact ⟨r, rfl, h2.mpr (Or.inl h)⟩
      · exact ⟨r, rfl, h2.mpr (Or.inr (Or.inl h))⟩
      · exact ⟨r, rfl, h2.mpr (Or.inr (Or.inr h))⟩
    · rintro ⟨r', hr', hn⟩
      cases hr'
      rcases h2.mp hn with h | h | h
      · exact Or.inl (Or.inl h)
      · exact Or.inl (Or.inr h)
      · exact Or.inr h

theorem modeAllowed_iff (m : Option String) :
    modeAllowed m = true ↔ ∃ s, m = some s ∧ (s = "attended" ∨ s = "watched") := by
  cases m with
  | none => simp [modeAllowed]
  | some s => simp [modeAllowed, List.contains_iff_exists_mem_beq]

theorem modeAllowed_not_falsy {m : Option String} (h : modeAllowed m = true) :
    jsFalsyStr m = false := by
  rcases (modeAllowed_iff m).mp h with ⟨s, rfl, hs | hs⟩ <;> subst hs <;> decide

/-! ### Helper lemmas about trimming and truncation -/

theorem head?_dropWhile_not {α : Type} (p : α → Bool) (l : List α) :
    ∀ c, (l.dropWhile p).head? = some c → p c = false := by
  induction l with
  | nil => intro c hc; cases hc
  | cons a t ih =>
    intro c hc
    rw [List.dropWhile_cons] at hc
    by_cases hp : p a = true
    · rw [if_pos hp] at hc
      exact ih c hc
    · rw [if_neg hp] at hc
      have hac : a = c := by simpa using hc
      subst hac
      simpa using hp

theorem rev_decomp {α : Type} (p : α → Bool) (l : List α) :
    l = (l.reverse.dropWhile p).reverse ++ (l.reverse.takeWhile p).reverse := by
  have h := congrArg List.reverse (List.takeWhile_append_dropWhile p l.reverse)
  rw [List.reverse_append, List.reverse_reverse] at h
  exact h.symm

theorem jsTrim_head_not_ws (s : FreeText) (c : Char) (hc : (jsTrim s).head? = some c) :
    isWs c = false := by
  simp only [jsTrim] at hc
  have hd1 : (s.dropWhile isWs).head? = some c := by
    rw [rev_decomp isWs (s.dropWhile isWs), List.head?_append, hc]
    rfl
  exact head?_dropWhile_not isWs s c hd1

theorem sanitizeText_long {cap : Nat} (hpos : 0 < cap) {s : FreeText}
    (h : cap < (jsTrim s).length) :
    ∃ t, sanitizeText cap (some s) = some t ∧ t.length = cap ∧
      ∀ c, t.head? = some c → isWs c = false := by
  have hne : (jsTrim s).take cap ≠ [] := by
    intro hnil
    rcases List.take_eq_nil_iff.mp hnil with h0 | h0
    · omega
    · rw [h0] at h; simp at h
  refine ⟨(jsTrim s).take cap, ?_, ?_, ?_⟩
  · simp [sanitizeText, hne]
  · rw [List.length_take]
    exact min_eq_left (Nat.le_of_lt h)
  · intro c hc
    rw [List.head?_take, if_neg (Nat.pos_iff_ne_zero.mp hpos)] at hc
    exact jsTrim_head_not_ws s c hc

theorem sanitizeText_eq_none_of_trim_nil (cap : Nat) {s : FreeText} (h : jsTrim s = []) :
    sanitizeText cap (some s) = none := by
  simp [sanitizeText, h]

theorem sanitizeText_ne_some_nil (cap : Nat) (x : Option FreeText) :
    sanitizeText cap x ≠ some [] := by
  cases x with
  | none => simp [sanitizeText]
  | some s =>
    simp only [sanitizeText]
    split
    · simp
    · simp_all

set_option maxRecDepth 8000

/-! ### C4: exact failure condition of the validator -/

/-- C4: the input validator fails exactly when `game_id` is missing (falsy:
absent or empty), `mode` is missing (falsy), `mode` is not one of
attended/watched, or a present rating is not an integer in the inclusive
range [1,5]; and whenever the required fields pass and the rating is an
integer in [1,5], validation succeeds and returns the rating unchanged. -/
theorem C4_validator_exact (g : GameLogInput) :
    ((validateGameLogInput g).isOk = false ↔
      jsFalsyStr g.game_id = true ∨ jsFalsyStr g.mode = true ∨
        modeAllowed g.mode = false ∨
        ∃ r, g.rating = some r ∧ ¬(r.den = 1 ∧ 1 ≤ r ∧ r ≤ 5)) ∧
    (∀ r : Rat, g.rating = some r → r.den = 1 → 1 ≤ r → r ≤ 5 →
      jsFalsyStr g.game_id = false → modeAllowed g.mode = true →
      validateGameLogInput g = .ok (sanitizeGameLog g) ∧
        (sanitizeGameLog g).rating = some r) := by
  constructor
  · rw [validateGameLogInput_isOk_eq, ← ratingBad_iff]
    cases hga : jsFalsyStr g.game_id <;> cases hgm : jsFalsyStr g.mode <;>
      cases hm : modeAllowed g.mode <;> cases hrb : ratingBad g.rating <;>
      simp [hga, hgm, hm, hrb]
  · intro r hr hden h1 h5 hga hm
    have hgm : jsFalsyStr g.mode = false := modeAllowed_not_falsy hm
    have hrb : ratingBad g.rating = false := by
      rw [hr]
      simp only [ratingBad, Bool.or_eq_false_iff, Bool.not_eq_false', beq_iff_eq,
        decide_eq_false_iff_not, not_lt]
      exact ⟨⟨hden, h1⟩, h5⟩
    refine ⟨?_, hr⟩
    simp [validateGameLogInput, hga, hgm, hm, hrb]

/-- Concrete instance for C4: a fully valid entry with integer rating 3 is
accepted with the rating unchanged. -/
theorem C4_validator_exact_witness :
    validateGameLogInput
        { game_id := some "G1", mode := some "attended", company := none
          rating := some 3, rooted_for := none, notes := none } =
      .ok (sanitizeGameLog
        { game_id := some "G1", mode := some "attended", company := none
          rating := some 3, rooted_for := none, notes := none }) ∧
    (sanitizeGameLog
        { game_id := some "G1", mode := some "attended", company := none
          rating := some 3, rooted_for := none, notes := none }).rating = some 3 :=
  (C4_validator_exact _).2 3 rfl (by decide) (by decide) (by decide) (by decide) (by decide)

/-! ### C5: truncation of over-long free text -/

/-- A company value whose trimmed content has 256 characters and whose
255th character is a space. -/
def c5LongText : FreeText := List.replicate 254 'a' ++ [' ', 'b']

/-- A valid candidate entry whose company field is `c5LongText`. -/
def c5Input : GameLogInput :=
  { game_id := some "G1", mode := some "attended", company := some c5LongText
    rating := none, rooted_for := none, notes := none }

/-- C5 counterexample: for the company value `c5LongText` (trimmed length
256, exceeding the 255 cap) the validator's normalized company has length
255 but ends in a space, so the claim that the normalized result carries
no trailing whitespace is false: truncation happens after trimming and
can cut at interior whitespace. -/
theorem C5_trailing_ws_counterexample :
    255 < (jsTrim c5LongText).length ∧
    validateGameLogInput c5Input = .ok (sanitizeGameLog c5Input) ∧
    (sanitizeGameLog c5Input).company = some (List.replicate 254 'a' ++ [' ']) ∧
    (List.replicate 254 'a' ++ [' ']).getLast? = some ' ' ∧
    isWs ' ' = true :=
  ⟨by decide, rfl, by decide, by decide, rfl⟩

/-- C5 amended: for every free-text field value whose trimmed content
exceeds that field's cap (255 for company, 1000 for notes, 100 for
rooted_for), the validator's normalized result for that field has length
exactly the cap and carries no leading whitespace (trailing whitespace can
remain when the cut falls at interior whitespace). -/
theorem C5_truncation_length (g : GameLogInput) (s : SanitizedGameLog)
    (hok : validateGameLogInput g = .ok s) :
    (∀ str, g.company = some str → 255 < (jsTrim str).length →
      ∃ t, s.company = some t ∧ t.length = 255 ∧
        ∀ c, t.head? = some c → isWs c = false) ∧
    (∀ str, g.notes = some str → 1000 < (jsTrim str).length →
      ∃ t, s.notes = some t ∧ t.length = 1000 ∧
        ∀ c, t.head? = some c → isWs c = false) ∧
    (∀ str, g.rooted_for = some str → 100 < (jsTrim str).length →
      ∃ t, s.rooted_for = some t ∧ t.length = 100 ∧
        ∀ c, t.head? = some c → isWs c = false) := by
  cases validateGameLogInput_ok_eq hok
  refine ⟨?_, ?_, ?_⟩ <;>
  · intro str hstr hlen
    simp only [sanitizeGameLog, hstr]
    exact sanitizeText_long (by omega) hlen

/-- Concrete instance for C5 amended: the over-long company of `c5Input`
is normalized to exactly 255 characters with no leading whitespace. -/
theorem C5_truncation_length_witness :
    ∃ t, (sanitizeGameLog c5Input).company = some t ∧ t.length = 255 ∧
      ∀ c, t.head? = some c → isWs c = false :=
  (C5_truncation_length c5Input (sanitizeGameLog c5Input) rfl).1 c5LongText rfl (by decide)

/-! ### C6: empty free text coerced to null -/

/-- C6: on successful validation, every free-text field that is absent or
reduces to the empty string after trimming (which covers the empty string
itself) is `null` in the normalized copy, and no free-text field of the
normalized copy is ever the empty string. -/
theorem C6_empty_text_to_null (g : GameLogInput) (s : SanitizedGameLog)
    (hok : validateGameLogInput g = .ok s) :
    ((g.company = none ∨ ∃ str, g.company = some str ∧ jsTrim str = []) →
      s.company = none) ∧ s.company ≠ some [] ∧
    ((g.notes = none ∨ ∃ str, g.notes = some str ∧ jsTrim str = []) →
      s.notes = none) ∧ s.notes ≠ some [] ∧
    ((g.rooted_for = none ∨ ∃ str, g.rooted_for = some str ∧ jsTrim str = []) →
      s.rooted_for = none) ∧ s.rooted_for ≠ some [] := by
  cases validateGameLogInput_ok_eq hok
  refine ⟨?_, sanitizeText_ne_some_nil _ _, ?_, sanitizeText_ne_some_nil _ _,
    ?_, sanitizeText_ne_some_nil _ _⟩ <;>
  · rintro (hnone | ⟨str, hstr, htrim⟩)
    · simp [sanitizeGameLog, hnone, sanitizeText]
    · simp only [sanitizeGameLog, hstr]
      exact sanitizeText_eq_none_of_trim_nil _ htrim

/-- A valid candidate entry with a whitespace-only company and an
absent notes field. -/
def c6Input : GameLogInput :=
  { game_id := some "G1", mode := some "watched", company := some "   ".toList
    rating := none, rooted_for := some [], notes := none }

/-- Concrete instance for C6: the whitespace-only company, the absent
notes and the empty rooted_for of `c6Input` are all coerced to null. -/
theorem C6_empty_text_to_null_witness :
    (sanitizeGameLog c6Input).company = none ∧
    (sanitizeGameLog c6Input).notes = none ∧
    (sanitizeGameLog c6Input).rooted_for = none :=
  ⟨(C6_empty_text_to_null c6Input (sanitizeGameLog c6Input) rfl).1
      (Or.inr ⟨"   ".toList, rfl, by decide⟩),
   (C6_empty_text_to_null c6Input (sanitizeGameLog c6Input) rfl).2.2.1 (Or.inl rfl),
   (C6_empty_text_to_null c6Input (sanitizeGameLog c6Input) rfl).2.2.2.2.1
      (Or.inr ⟨[], rfl, by decide⟩)⟩

/-! ### C7: list query -/

/-- C7: with no session the list query is disabled and its query function
returns the empty sequence (not an error) without issuing a network call;
with a session it issues the read and returns exactly the user's rows
(a permutation of the user-filtered table) ordered newest-created
first. -/
theorem C7_list_query (db : Db) (uid : String) :
    gameLogsQueryFn none db = ([], false) ∧
    gameLogsQueryEnabled none = false ∧
    (gameLogsQueryFn (some uid) db).2 = true ∧
    List.Sorted newerCreated (gameLogsQueryFn (some uid) db).1 ∧
    (gameLogsQueryFn (some uid) db).1.Perm
      (db.rows.filter (fun r => r.user_id == uid)) :=
  ⟨rfl, rfl, rfl,
   List.sorted_insertionSort newerCreated _,
   List.perm_insertionSort newerCreated _⟩

/-! ### C8: create -/

/-- The scenario input of C8: `{game_id: "G1", mode: "attended",
company: "  Alex  "}`. -/
def c8ScenarioInput : GameLogInput :=
  { game_id := some "G1", mode := some "attended", company := some "  Alex  ".toList
    rating := none, rooted_for := none, notes := none }

/-- C8: the create operation fails with an authentication error whenever no
session is active, for any input (so before validation and before any
write); with a session, every successfully written row has `user_id` equal
to the session identity, whatever `user_id` value the caller supplied; and
the scenario input persists `company = "Alex"` and `user_id = U`. -/
theorem C8_add_auth_and_owner :
    (∀ g cu db newId now,
      addGameLog none g cu db newId now =
        .error "Must be authenticated to add game logs") ∧
    (∀ uid g cu db newId now p,
      addGameLog (some uid) g cu db newId now = .ok p → p.2.user_id = uid) ∧
    (∀ uid cu db newId now p,
      addGameLog (some uid) c8ScenarioInput cu db newId now = .ok p →
        p.2.company = some "Alex".toList ∧ p.2.user_id = uid) := by
  refine ⟨fun g cu db newId now => rfl, ?_, ?_⟩
  · intro uid g cu db newId now p h
    simp only [addGameLog] at h
    cases hv : validateGameLogInput g with
    | error e => rw [hv] at h; cases h
    | ok v => rw [hv] at h; cases h; rfl
  · intro uid cu db newId now p h
    simp only [addGameLog] at h
    cases hv : validateGameLogInput c8ScenarioInput with
    | error e => rw [hv] at h; cases h
    | ok v =>
      rw [hv] at h
      have hvv : v = sanitizeGameLog c8ScenarioInput := validateGameLogInput_ok_eq hv
      cases h
      subst hvv
      exact ⟨rfl, rfl⟩

/-- The row persisted by the C8 scenario with server-assigned id `"id1"`
and timestamp 7 for user `"U"`. -/
def c8Row : LogRow :=
  { id := "id1", user_id := "U", game_id := "G1", mode := "attended"
    company := some "Alex".toList, rating := none, rooted_for := none, notes := none
    created_at := 7, updated_at := 7 }

/-- Concrete instance for C8: creating the scenario input as user `"U"`
persists `company = "Alex"` and `user_id = "U"`. -/
theorem C8_add_auth_and_owner_witness :
    c8Row.company = some "Alex".toList ∧ c8Row.user_id = "U" :=
  C8_add_auth_and_owner.2.2 "U" none ⟨[]⟩ "id1" 7 (⟨[c8Row]⟩, c8Row) rfl

/-! ### C9: update writes exactly the mutable fields -/

/-- C9: the update operation fails before any network call when the
session is absent or the target id is empty; on every execution that
reaches the remote write, the written columns are exactly `mode`,
`company`, `rating`, `rooted_for`, `notes` and a refreshed `updated_at` —
in particular neither `game_id` (the sentinel supplied only for the shared
validation) nor `user_id` is ever written — and the write is filtered by
the compound condition `(id = target, user_id = session identity)`. -/
theorem C9_update_fields_and_filter :
    (∀ g now, updateGameLog none g now =
      .error "Must be authenticated to update game logs") ∧
    (∀ uid g now, g.id = "" →
      updateGameLog (some uid) g now = .error "Game log ID is required for updates") ∧
    (∀ uid g now out, updateGameLog (some uid) g now = .ok out →
      out.1.map Prod.fst = ["mode", "company", "rating", "rooted_for", "notes", "updated_at"] ∧
      "game_id" ∉ out.1.map Prod.fst ∧
      "user_id" ∉ out.1.map Prod.fst ∧
      ("updated_at", FieldVal.time now) ∈ out.1 ∧
      out.2 = (g.id, uid)) := by
  refine ⟨fun g now => rfl, ?_, ?_⟩
  · intro uid g now hid
    simp [updateGameLog, hid]
  · intro uid g now out h
    simp only [updateGameLog] at h
    split at h
    · cases h
    · cases hv : validateGameLogInput
          { game_id := some "temp", mode := g.mode, company := g.company
            rating := g.rating, rooted_for := g.rooted_for, notes := g.notes } with
      | error e => rw [hv] at h; cases h
      | ok v =>
        rw [hv] at h
        cases h
        refine ⟨rfl, by simp, by simp, ?_, rfl⟩
        simp

/-- The concrete update of C9's witness: target `"e1"`, rating 4, as user
`"U"` at time 9. -/
def c9Input : UpdateGameLogInput :=
  { id := "e1", mode := some "attended", company := none, rating := some 4
    rooted_for := none, notes := none }

/-- The column assignments produced by the C9 witness update. -/
def c9Fields : List (String × FieldVal) :=
  [("mode", FieldVal.optStr (some "attended")), ("company", FieldVal.txt none),
   ("rating", FieldVal.num (some 4)), ("rooted_for", FieldVal.txt none),
   ("notes", FieldVal.txt none), ("updated_at", FieldVal.time 9)]

/-- Concrete instance for C9: the witness update writes exactly the six
mutable columns, never `game_id` or `user_id`, and filters on
`(id = "e1", user_id = "U")`. -/
theorem C9_update_fields_and_filter_witness :
    c9Fields.map Prod.fst = ["mode", "company", "rating", "rooted_for", "notes", "updated_at"] ∧
    "game_id" ∉ c9Fields.map Prod.fst ∧
    "user_id" ∉ c9Fields.map Prod.fst ∧
    ("updated_at", FieldVal.time 9) ∈ c9Fields ∧
    (c9Fields, ("e1", "U")).2 = (c9Input.id, "U") :=
  C9_update_fields_and_filter.2.2 "U" c9Input 9 (c9Fields, ("e1", "U")) rfl

/-! ### C2: the optimistic removal -/

/-- C2: when a delete of entry id `X` is initiated, the optimistic patch
applied by `onMutate` — synchronously, before the remote call resolves —
replaces the cached entry list with the old list minus every element whose
id equals `X`, and leaves no element whose linked log entry has id `X` in
any cached logged-games result set, whatever its filter-parameterized
key. -/
theorem C2_optimistic_removal (uid X : String) (c : Cache) (l : List LogRow)
    (h : getQueryData c.entries ["game-logs", uid] = some l) :
    getQueryData (onMutate uid X c).1.entries ["game-logs", uid] =
      some (l.filter (fun r => !(r.id == X))) ∧
    ∀ s ∈ (onMutate uid X c).1.logged, s.key.head? = some "logged-games" →
      ∀ d, s.data = some d → ∀ g ∈ d, ¬(g.logData.map LogRow.id = some X) := by
  constructor
  · have he : (onMutate uid X c).1.entries
        = setQueryData c.entries ["game-logs", uid] (l.filter (fun r => !(r.id == X))) := by
      simp [onMutate, h]
    rw [he]
    exact getQueryData_setQueryData_self ..
  · have hl2 : (onMutate uid X c).1.logged = c.logged.map (patchLoggedSlot X) := by
      simp [onMutate]
    intro s hs hhead d hd g hg
    rw [hl2] at hs
    rcases List.mem_map.mp hs with ⟨t, ht, rfl⟩
    by_cases hk : t.key.head? = some "logged-games"
    · rw [patchLoggedSlot, if_pos hk] at hd
      simp only at hd
      cases htd : t.data with
      | some dl =>
        rw [htd] at hd
        cases hd
        simpa using (List.mem_filter.mp hg).2
      | none =>
        rw [htd] at hd
        cases hd
        cases hg
    · rw [patchLoggedSlot, if_neg hk] at hhead
      exact absurd hhead hk

/-- Entry `E` of the scenario caches: id `"e1"`, owned by `"U"`. -/
def rowE : LogRow :=
  { id := "e1", user_id := "U", game_id := "G1", mode := "attended"
    company := none, rating := none, rooted_for := none, notes := none
    created_at := 1, updated_at := 1 }

/-- Entry `F` of the scenario caches: id `"f1"`, owned by `"U"`. -/
def rowF : LogRow :=
  { id := "f1", user_id := "U", game_id := "G2", mode := "watched"
    company := none, rating := none, rooted_for := none, notes := none
    created_at := 2, updated_at := 2 }

/-- The logged-games element carrying entry `E`. -/
def gameE : LoggedGame := { game_id := "G1", logData := some rowE }

/-- The logged-games element carrying entry `F`. -/
def gameF : LoggedGame := { game_id := "G2", logData := some rowF }

/-- The scenario cache: entry-list slot holding `[E, F]`, the
unparameterized logged-games slot, and one filter-parameterized
logged-games slot holding only `E`'s logged game. -/
def cacheEF : Cache :=
  { entries := [{ key := ["game-logs", "U"], data := some [rowE, rowF], fresh := true }]
    logged :=
      [{ key := ["logged-games", "U"], data := some [gameE, gameF], fresh := true },
       { key := ["logged-games", "U", "season2024"], data := some [gameE], fresh := true }] }

/-- Concrete instance for C2: deleting `E` while the entry-list cache
holds `[E, F]` immediately yields a cached list of `[F]`, and no
logged-games slot retains an element linked to `E`. -/
theorem C2_optimistic_removal_witness :
    getQueryData (onMutate "U" "e1" cacheEF).1.entries ["game-logs", "U"] = some [rowF] ∧
    ∀ s ∈ (onMutate "U" "e1" cacheEF).1.logged, s.key.head? = some "logged-games" →
      ∀ d, s.data = some d → ∀ g ∈ d, ¬(g.logData.map LogRow.id = some "e1") :=
  ⟨((C2_optimistic_removal "U" "e1" cacheEF [rowE, rowF] rfl).1).trans (by decide),
   (C2_optimistic_removal "U" "e1" cacheEF [rowE, rowF] rfl).2⟩

/-! ### C1: rollback on failed delete (corrected) -/

/-- C1 counterexample: deleting `E` (id `"e1"`) from `cacheEF` and then
failing the remote delete does NOT restore the filter-parameterized
logged-games slot `["logged-games", "U", "season2024"]`: before the delete
it held `[gameE]`, after the failure handler it holds `[]` — `onMutate`
snapshots only the keys `["game-logs", uid]` and `["logged-games", uid]`,
while the optimistic patch hits every logged-games slot. The entry-list
slot, by contrast, is restored to `[E, F]`. -/
theorem C1_counterexample :
    getQueryData cacheEF.logged ["logged-games", "U", "season2024"] = some [gameE] ∧
    getQueryData
        (onError "U" (onMutate "U" "e1" cacheEF).2 (onMutate "U" "e1" cacheEF).1).logged
        ["logged-games", "U", "season2024"] = some [] ∧
    some ([] : List LoggedGame) ≠ some [gameE] ∧
    getQueryData
        (onError "U" (onMutate "U" "e1" cacheEF).2 (onMutate "U" "e1" cacheEF).1).entries
        ["game-logs", "U"] = some [rowE, rowF] :=
  ⟨rfl, by decide, by decide, by decide⟩

/-- C1 amended: if the remote delete fails, the two snapshots that
`onMutate` actually captured — the entry-list slot `["game-logs", uid]`
and the single unparameterized logged-games slot `["logged-games", uid]` —
are restored verbatim to their slots when present; every logged-games slot
under any other (filter-parameterized) key is left exactly as the
optimistic patch left it. In particular an entry-list cache holding
`[E, F]` before deleting `E` again holds `[E, F]` after the failure
handler runs. -/
theorem C1_rollback_restores_snapshots (uid X : String) (c : Cache)
    (l : List LogRow) (hl : getQueryData c.entries ["game-logs", uid] = some l) :
    getQueryData
        (onError uid (onMutate uid X c).2 (onMutate uid X c).1).entries
        ["game-logs", uid] = some l ∧
    (∀ lg, getQueryData c.logged ["logged-games", uid] = some lg →
      getQueryData (onError uid (onMutate uid X c).2 (onMutate uid X c).1).logged
        ["logged-games", uid] = some lg) ∧
    (∀ k, k ≠ ["logged-games", uid] →
      getQueryData (onError uid (onMutate uid X c).2 (onMutate uid X c).1).logged k =
        getQueryData (onMutate uid X c).1.logged k) := by
  have hprev : (onMutate uid X c).2.previousGameLogs = some l := by
    simp [onMutate, hl]
  refine ⟨?_, ?_, ?_⟩
  · cases hplg : (onMutate uid X c).2.previousLoggedGames with
    | none =>
      simp only [onError, hprev, hplg]
      exact getQueryData_setQueryData_self ..
    | some lg =>
      simp only [onError, hprev, hplg]
      exact getQueryData_setQueryData_self ..
  · intro lg hlg
    have hplg : (onMutate uid X c).2.previousLoggedGames = some lg := by
      simp [onMutate, hlg]
    simp only [onError, hprev, hplg]
    exact getQueryData_setQueryData_self ..
  · intro k hk
    cases hplg : (onMutate uid X c).2.previousLoggedGames with
    | none => simp only [onError, hprev, hplg]
    | some lg =>
      simp only [onError, hprev, hplg]
      exact getQueryData_setQueryData_ne _ _ _ _ hk

/-- Concrete instance for C1 amended on `cacheEF`: after a failed delete
of `E`, the entry list is again `[E, F]`, the unparameterized logged-games
slot is restored to `[gameE, gameF]`, and the filter-parameterized slot
keeps its optimistically patched value. -/
theorem C1_rollback_restores_snapshots_witness :
    getQueryData
        (onError "U" (onMutate "U" "e1" cacheEF).2 (onMutate "U" "e1" cacheEF).1).entries
        ["game-logs", "U"] = some [rowE, rowF] ∧
    getQueryData
        (onError "U" (onMutate "U" "e1" cacheEF).2 (onMutate "U" "e1" cacheEF).1).logged
        ["logged-games", "U"] = some [gameE, gameF] ∧
    getQueryData
        (onError "U" (onMutate "U" "e1" cacheEF).2 (onMutate "U" "e1" cacheEF).1).logged
        ["logged-games", "U", "season2024"] =
      getQueryData (onMutate "U" "e1" cacheEF).1.logged ["logged-games", "U", "season2024"] :=
  ⟨(C1_rollback_restores_snapshots "U" "e1" cacheEF [rowE, rowF] rfl).1,
   (C1_rollback_restores_snapshots "U" "e1" cacheEF [rowE, rowF] rfl).2.1 [gameE, gameF] rfl,
   (C1_rollback_restores_snapshots "U" "e1" cacheEF [rowE, rowF] rfl).2.2
      ["logged-games", "U", "season2024"] (by decide)⟩

/-! ### C3: the settle step always invalidates -/

/-- C3: every execution of the delete protocol that reaches the remote
call — whatever the remote outcome — ends with the settle step having
invalidated the entry-list cache and all logged-games caches: every slot
under the `game-logs` or `logged-games` key is stale, forcing a fresh read
from the remote store. -/
theorem C3_settle_invalidates (uid X : String) (remoteOk : Bool) (c : Cache) :
    (∀ s ∈ (deleteFlow uid X remoteOk c).entries,
      s.key.head? = some "game-logs" → s.fresh = false) ∧
    (∀ s ∈ (deleteFlow uid X remoteOk c).logged,
      s.key.head? = some "logged-games" → s.fresh = false) := by
  have hgen : ∀ (α : Type) (seg : String) (slots : List (CacheSlot α)),
      ∀ s ∈ invalidateByHead seg slots, s.key.head? = some seg → s.fresh = false := by
    intro α seg slots s hs hhead
    rcases List.mem_map.mp hs with ⟨t, ht, rfl⟩
    by_cases hk : t.key.head? = some seg
    · simp [if_pos hk]
    · rw [if_neg hk] at hhead
      exact absurd hhead hk
  exact ⟨fun s hs hh => hgen _ "game-logs" _ s hs hh,
         fun s hs hh => hgen _ "logged-games" _ s hs hh⟩

/-- Concrete instance for C3: after a failed delete of `E` on `cacheEF`,
the entry-list slot is stale. -/
theorem C3_settle_invalidates_witness :
    { key := ["game-logs", "U"], data := some [rowE, rowF], fresh := false } ∈
      (deleteFlow "U" "e1" false cacheEF).entries ∧
    ({ key := ["game-logs", "U"], data := some [rowE, rowF],
        fresh := false } : CacheSlot (List LogRow)).fresh = false :=
  ⟨by decide,
   (C3_settle_invalidates "U" "e1" false cacheEF).1
     { key := ["game-logs", "U"], data := some [rowE, rowF], fresh := false }
     (by decide) (by decide)⟩

/-! ### C10: slots holding no value -/

/-- C10: when a delete is initiated while the entry-list slot holds no
value, the optimistic patch installs the empty list into it, the snapshot
for it is the absent value, and the error-path rollback — which restores a
slot only when its snapshot is present — leaves the installed empty list
in place; likewise every active logged-games slot holding no value
receives the empty list, and when the logged-games snapshot is absent the
rollback leaves the entire patched logged-games store untouched. -/
theorem C10_undefined_slots (uid X : String) (c : Cache)
    (hent : getQueryData c.entries ["game-logs", uid] = none) :
    (onMutate uid X c).2.previousGameLogs = none ∧
    getQueryData (onMutate uid X c).1.entries ["game-logs", uid] = some [] ∧
    getQueryData (onError uid (onMutate uid X c).2 (onMutate uid X c).1).entries
        ["game-logs", uid] = some [] ∧
    (∀ s ∈ c.logged, s.key.head? = some "logged-games" → s.data = none →
      { s with data := some ([] : List LoggedGame) } ∈ (onMutate uid X c).1.logged) ∧
    ((onMutate uid X c).2.previousLoggedGames = none →
      (onError uid (onMutate uid X c).2 (onMutate uid X c).1).logged =
        (onMutate uid X c).1.logged) := by
  have hprev : (onMutate uid X c).2.previousGameLogs = none := by
    simp [onMutate, hent]
  have hpatch : getQueryData (onMutate uid X c).1.entries ["game-logs", uid] = some [] := by
    have he : (onMutate uid X c).1.entries
        = setQueryData c.entries ["game-logs", uid] [] := by
      simp [onMutate, hent]
    rw [he]
    exact getQueryData_setQueryData_self ..
  have hErrEnt : ∀ (ctx : DeleteCtx) (cc : Cache), ctx.previousGameLogs = none →
      (onError uid ctx cc).entries = cc.entries := by
    intro ctx cc hp
    simp only [onError, hp]
    cases ctx.previousLoggedGames <;> rfl
  refine ⟨hprev, hpatch, ?_, ?_, ?_⟩
  · rw [hErrEnt _ _ hprev]
    exact hpatch
  · intro s hs hhead hdata
    have hl2 : (onMutate uid X c).1.logged = c.logged.map (patchLoggedSlot X) := by
      simp [onMutate]
    rw [hl2]
    exact List.mem_map.mpr ⟨s, hs, by simp [patchLoggedSlot, hhead, hdata]⟩
  · intro hplg
    simp only [onError, hprev, hplg]

/-- A cache whose entry-list slot and single logged-games slot are active
but hold no data. -/
def cacheUndef : Cache :=
  { entries := [{ key := ["game-logs", "U"], data := none, fresh := true }]
    logged := [{ key := ["logged-games", "U", "s1"], data := none, fresh := true }] }

/-- Concrete instance for C10 on `cacheUndef`: the empty list is installed
into both empty slots and survives the rollback. -/
theorem C10_undefined_slots_witness :
    getQueryData (onMutate "U" "e1" cacheUndef).1.entries ["game-logs", "U"] = some [] ∧
    ({ key := ["logged-games", "U", "s1"], data := some ([] : List LoggedGame),
        fresh := true } : CacheSlot (List LoggedGame)) ∈
      (onMutate "U" "e1" cacheUndef).1.logged ∧
    (onError "U" (onMutate "U" "e1" cacheUndef).2 (onMutate "U" "e1" cacheUndef).1).logged =
      (onMutate "U" "e1" cacheUndef).1.logged :=
  ⟨(C10_undefined_slots "U" "e1" cacheUndef rfl).2.1,
   (C10_undefined_slots "U" "e1" cacheUndef rfl).2.2.2.1
      { key := ["logged-games", "U", "s1"], data := none, fresh := true }
      (by decide) rfl rfl,
   (C10_undefined_slots "U" "e1" cacheUndef rfl).2.2.2.2 rfl⟩
